import Mathlib

/-!
Verification of the restson REST-client request pipeline (`src/lib.rs`).

The development shallowly embeds the request construction and execution
pipeline of `RestClient`: URL path replacement and query serialization
(`make_uri`, via the `url` crate's `Url::set_path` and
`Url::query_pairs_mut().append_pair`), request building (`make_request`),
header/auth overlay and response classification (`run_request`), and the
public operations (`get`, `get_with`, `post_or_put`, `post_or_put_with`,
`post_or_put_capture`, `post_or_put_capture_with`, `delete`).

Machine integers are modelled as `Nat`; bytes are `Nat` values below 256.
Strings are Lean `String`s (lists of unicode scalar values), matching Rust
`String` contents; byte lengths use UTF-8 byte size as in Rust.
-/

namespace Restson

/-- Uppercase hexadecimal digit, as used by the `url` crate's percent
encoding (`%20`, `%C3`, ...). -/
def hexDigit (n : Nat) : Char :=
  if n < 10 then Char.ofNat (48 + n) else Char.ofNat (55 + n)

/-- Percent-encode one byte as the three characters `%XY` (uppercase hex). -/
def percentEncodeByte (b : Nat) : List Char :=
  [Char.ofNat 37, hexDigit (b / 16), hexDigit (b % 16)]

/-- UTF-8 encoding of one unicode scalar value, as the bytes Rust produces
for a `char`. -/
def charUtf8Bytes (c : Char) : List Nat :=
  let n := c.toNat
  if n < 0x80 then [n]
  else if n < 0x800 then [0xC0 + n / 64, 0x80 + n % 64]
  else if n < 0x10000 then [0xE0 + n / 4096, 0x80 + (n / 64) % 64, 0x80 + n % 64]
  else [0xF0 + n / 262144, 0x80 + (n / 4096) % 64, 0x80 + (n / 64) % 64, 0x80 + n % 64]

/-- UTF-8 bytes of a string, as Rust's `str::as_bytes` / `String::len` view
them. -/
def strUtf8Bytes (s : String) : List Nat :=
  s.data.flatMap charUtf8Bytes

/-- Character of the standard base64 alphabet at index `n`, as used by the
`base64` crate backing hyper's `Basic` authorization scheme. -/
def base64Char (n : Nat) : Char :=
  if n < 26 then Char.ofNat (65 + n)
  else if n < 52 then Char.ofNat (97 + (n - 26))
  else if n < 62 then Char.ofNat (48 + (n - 52))
  else if n = 62 then Char.ofNat 43
  else Char.ofNat 47

/-- Standard base64 encoding (with `=` padding) of a byte list. -/
def base64EncodeList : List Nat → List Char
  | [] => []
  | [b1] =>
      [base64Char (b1 / 4), base64Char ((b1 % 4) * 16), Char.ofNat 61, Char.ofNat 61]
  | [b1, b2] =>
      [base64Char (b1 / 4), base64Char ((b1 % 4) * 16 + b2 / 16),
       base64Char ((b2 % 16) * 4), Char.ofNat 61]
  | b1 :: b2 :: b3 :: rest =>
      base64Char (b1 / 4) :: base64Char ((b1 % 4) * 16 + b2 / 16) ::
      base64Char ((b2 % 16) * 4 + b3 / 64) :: base64Char (b3 % 64) ::
      base64EncodeList rest

/-- Base64 encoding of bytes as a string. -/
def base64Encode (bs : List Nat) : String :=
  ⟨base64EncodeList bs⟩

/-- Header value produced by hyper's `Authorization(Basic { username, password: Some(password) })`:
the string `Basic base64(user:pass)`. Embeds `RestClient::set_auth`'s stored
credential as it is serialized onto a request. -/
def basicAuthValue (user pass : String) : String :=
  "Basic " ++ base64Encode (strUtf8Bytes (user ++ ":" ++ pass))

/-- Continuation byte test for UTF-8 decoding (`0x80..=0xBF`). -/
def isCont (b : Nat) : Bool := 0x80 ≤ b && b ≤ 0xBF

/-- Valid range for the second byte of a multi-byte UTF-8 sequence, given the
lead byte: excludes overlong encodings and surrogate code points, as Rust's
`core::str` validity rules do. -/
def validSecond (lead b : Nat) : Bool :=
  if lead = 0xE0 then 0xA0 ≤ b && b ≤ 0xBF
  else if lead = 0xED then 0x80 ≤ b && b ≤ 0x9F
  else if lead = 0xF0 then 0x90 ≤ b && b ≤ 0xBF
  else if lead = 0xF4 then 0x80 ≤ b && b ≤ 0x8F
  else isCont b

/-- UTF-8 decoding with error positions, following Rust's
`String::from_utf8_lossy` (substitution of maximal subparts): `some c` is a
decoded scalar, `none` marks one replacement-character substitution. An
invalid lead byte or an invalid continuation byte after a valid prefix skips
the offending prefix and yields one `none`; a truncated sequence at end of
input yields one `none`. -/
def utf8DecodeAux : List Nat → List (Option Char)
  | [] => []
  | b :: rest =>
    if b < 0x80 then some (Char.ofNat b) :: utf8DecodeAux rest
    else if 0xC2 ≤ b && b ≤ 0xDF then
      match rest with
      | [] => [none]
      | b2 :: r2 =>
        if isCont b2 then
          some (Char.ofNat ((b - 0xC0) * 64 + (b2 - 0x80))) :: utf8DecodeAux r2
        else none :: utf8DecodeAux (b2 :: r2)
    else if 0xE0 ≤ b && b ≤ 0xEF then
      match rest with
      | [] => [none]
      | b2 :: r2 =>
        if validSecond b b2 then
          match r2 with
          | [] => [none]
          | b3 :: r3 =>
            if isCont b3 then
              some (Char.ofNat ((b - 0xE0) * 4096 + (b2 - 0x80) * 64 + (b3 - 0x80))) ::
                utf8DecodeAux r3
            else none :: utf8DecodeAux (b3 :: r3)
        else none :: utf8DecodeAux (b2 :: r2)
    else if 0xF0 ≤ b && b ≤ 0xF4 then
      match rest with
      | [] => [none]
      | b2 :: r2 =>
        if validSecond b b2 then
          match r2 with
          | [] => [none]
          | b3 :: r3 =>
            if isCont b3 then
              match r3 with
              | [] => [none]
              | b4 :: r4 =>
                if isCont b4 then
                  some (Char.ofNat ((b - 0xF0) * 262144 + (b2 - 0x80) * 4096 +
                    (b3 - 0x80) * 64 + (b4 - 0x80))) :: utf8DecodeAux r4
                else none :: utf8DecodeAux (b4 :: r4)
            else none :: utf8DecodeAux (b3 :: r3)
        else none :: utf8DecodeAux (b2 :: r2)
    else none :: utf8DecodeAux rest

/-- Unicode replacement character U+FFFD. -/
def replacementChar : Char := Char.ofNat 0xFFFD

/-- Embedding of Rust's `String::from_utf8_lossy(&chunk).to_string()`:
decode bytes as UTF-8, substituting a replacement character at each error. -/
def stringFromUtf8Lossy (bs : List Nat) : String :=
  ⟨(utf8DecodeAux bs).map (fun o => o.getD replacementChar)⟩

/-- A byte list is valid UTF-8 iff decoding it produces no substitution. -/
def utf8Valid (bs : List Nat) : Bool :=
  (utf8DecodeAux bs).all (fun o => o.isSome)

/-- Embedding of the body collection in `RestClient::run_request`
(lib.rs lines 294-298): each received chunk is decoded with
`String::from_utf8_lossy` independently, and the resulting strings are
concatenated by `collect`. -/
def collectBody (chunks : List (List Nat)) : String :=
  String.join (chunks.map stringFromUtf8Lossy)

/-- Model of a parsed `url::Url` with a host (non-cannot-be-a-base), as
`RestClient::new` produces for the base URL. The authority groups
username/password/host/port, which `make_uri` never touches; fragments are
not modelled (REST base URLs carry none and `set_path`/`query_pairs_mut`
leave them unchanged). -/
structure ModelUrl where
  scheme : String
  authority : String
  path : String
  query : Option String
deriving DecidableEq

/-- Byte left unchanged by the `url` crate's PATH percent-encode set:
printable ASCII except space and the characters in the DEFAULT+PATH encode
set (double quote, number sign, angle brackets, question mark, backtick and
curly braces, codes 34, 35, 60, 62, 63, 96, 123, 125). Control bytes,
space and non-ASCII bytes are percent-encoded. -/
def pathCharUnchanged (c : Char) : Bool :=
  let n := c.toNat
  0x20 < n && n < 0x7F && n != 34 && n != 35 && n != 60 && n != 62 &&
    n != 63 && n != 96 && n != 123 && n != 125

/-- Percent-encoding of one character for a URL path: kept verbatim when
outside the PATH encode set, otherwise each of its UTF-8 bytes is
percent-encoded. -/
def pathEncodeChar (c : Char) : List Char :=
  if pathCharUnchanged c then [c] else (charUtf8Bytes c).flatMap percentEncodeByte

/-- Path separator as seen by the `url` crate's path parser on a special
scheme (http/https, the schemes this REST client is used with): both the
slash (47) and the backslash (92) separate segments. -/
def isPathSep (c : Char) : Bool :=
  c.toNat == 47 || c.toNat == 92

/-- ASCII lowercasing of one character, for the parser's ASCII
case-insensitive comparison of percent-encoded dot segments. -/
def asciiLower (c : Char) : Char :=
  if 65 ≤ c.toNat && c.toNat ≤ 90 then Char.ofNat (c.toNat + 32) else c

/-- Single-dot path segment test of the WHATWG path state the `url` crate
implements: the segment `.` or its percent-encoded form `%2e`
(ASCII case-insensitive). -/
def segmentIsDot (s : List Char) : Bool :=
  s.map asciiLower == ".".data || s.map asciiLower == "%2e".data

/-- Double-dot path segment test of the WHATWG path state the `url` crate
implements: `..` or any of its partly or fully percent-encoded forms
(ASCII case-insensitive). -/
def segmentIsDotDot (s : List Char) : Bool :=
  s.map asciiLower == "..".data || s.map asciiLower == ".%2e".data ||
    s.map asciiLower == "%2e.".data || s.map asciiLower == "%2e%2e".data

/-- Split a path input into its segments at every separator; splitting the
empty input yields one empty segment, matching the parser reading one
(empty) segment from empty input. -/
def splitPathSegments : List Char → List (List Char)
  | [] => [[]]
  | c :: rest =>
    if isPathSep c then [] :: splitPathSegments rest
    else
      match splitPathSegments rest with
      | s :: ss => (c :: s) :: ss
      | [] => [[c]]

/-- Percent-encoding of one raw path segment, character by character. -/
def pathSegmentEncode (s : List Char) : List Char :=
  s.flatMap pathEncodeChar

/-- Segment processing of the `url` crate's `parse_path` (the WHATWG path
state): a double-dot segment pops the previously written segment
(`pop_path`), a single-dot segment is dropped, any other segment is
percent-encoded and appended; when the input ends in a dot segment, an
empty segment is appended in its place so the path keeps its trailing
slash position. -/
def parsePathLoop : List (List Char) → List (List Char) → List (List Char)
  | acc, [] => acc
  | acc, [s] =>
    if segmentIsDotDot s then acc.dropLast ++ [[]]
    else if segmentIsDot s then acc ++ [[]]
    else acc ++ [pathSegmentEncode s]
  | acc, s :: s2 :: rest =>
    if segmentIsDotDot s then parsePathLoop acc.dropLast (s2 :: rest)
    else if segmentIsDot s then parsePathLoop acc (s2 :: rest)
    else parsePathLoop (acc ++ [pathSegmentEncode s]) (s2 :: rest)

/-- One leading separator of the path input is consumed before segment
parsing (`parse_path_start`). -/
def stripLeadingSep (l : List Char) : List Char :=
  match l with
  | c :: rest => if isPathSep c then rest else l
  | [] => []

/-- Serialization of a segment list as a path string: every segment is
written prefixed with a slash. -/
def pathFromSegments (segs : List (List Char)) : String :=
  ⟨segs.flatMap (fun s => Char.ofNat 47 :: s)⟩

/-- Embedding of `url::Url::set_path` on a URL with a host and a special
scheme: one leading separator is consumed, the input is split into
segments at `/` and `\`, dot segments are normalized (single-dot dropped,
double-dot pops, `%2e` forms matched ASCII case-insensitively), the
remaining segments are percent-encoded per the path encode set, and the
result is serialized with a slash before every segment — so the path
always begins with a slash. -/
def urlSetPath (u : ModelUrl) (p : String) : ModelUrl :=
  { u with path :=
      pathFromSegments (parsePathLoop [] (splitPathSegments (stripLeadingSep p.data))) }

/-- Byte serialized unchanged by `application/x-www-form-urlencoded`
(the `url` crate's `form_urlencoded::byte_serialize`): asterisk, hyphen,
period, underscore, digits and ASCII letters. -/
def formByteUnchanged (b : Nat) : Bool :=
  b = 42 || b = 45 || b = 46 || b = 95 || (48 ≤ b && b ≤ 57) ||
    (65 ≤ b && b ≤ 90) || (97 ≤ b && b ≤ 122)

/-- Serialization of one byte in a query pair: unchanged bytes verbatim,
space as a plus sign (code 43), any other byte percent-encoded. -/
def formEncodeByte (b : Nat) : List Char :=
  if formByteUnchanged b then [Char.ofNat b]
  else if b = 32 then [Char.ofNat 43]
  else percentEncodeByte b

/-- Form-urlencoded serialization of a string (over its UTF-8 bytes). -/
def formEncode (s : String) : String :=
  ⟨(strUtf8Bytes s).flatMap formEncodeByte⟩

/-- Serialized form of one query pair, `key=value`. -/
def queryPairString (k v : String) : String :=
  formEncode k ++ "=" ++ formEncode v

/-- Embedding of `url::Url::query_pairs_mut().append_pair(key, item)`:
serializes the pair and appends it to the existing query string with an
ampersand separator when one is already present. -/
def appendPair (u : ModelUrl) (k v : String) : ModelUrl :=
  { u with query := some (match u.query with
      | none => queryPairString k v
      | some q => if q = "" then queryPairString k v else q ++ "&" ++ queryPairString k v) }

/-- Embedding of `RestClient::make_uri` (lib.rs lines 331-342): clone the
base URL, replace its path with the resolved path, then append each query
pair in order. The final `parse::<hyper::Uri>` of the serialized URL is
component-preserving on any URL the `url` crate serializes and is not
modelled (its `UrlError` arm is unreachable from these inputs). -/
def make_uri (base : ModelUrl) (path : String) (params : Option (List (String × String))) :
    ModelUrl :=
  let u := urlSetPath base path
  match params with
  | none => u
  | some ps => ps.foldl (fun acc kv => appendPair acc kv.1 kv.2) u

/-- Lookup of a header value by (lowercased) name: first match in the
association list. Hyper's `Headers` compares names case-insensitively
(`UniCase`); the model keeps every name lowercase. -/
def headersGet (hs : List (String × String)) (k : String) : Option String :=
  (hs.find? (fun p => p.1 == k)).map (fun p => p.2)

/-- Embedding of hyper's `Headers::set`/`set_raw` and of the map insert that
`Headers::extend` performs per header: any existing entry with the same name
is replaced. Hyper stores headers in a hash map, so entry order carries no
meaning; the model keeps the updated entry last. -/
def headersSet (hs : List (String × String)) (k v : String) : List (String × String) :=
  hs.filter (fun p => !(p.1 == k)) ++ [(k, v)]

/-- State of a `RestClient` visible to the claims: the parsed base URL, the
optional Basic-auth credentials, and the default header map. The tokio
reactor and hyper client handles carry no claim-relevant state. -/
structure ClientState where
  baseurl : ModelUrl
  auth : Option (String × String)
  headers : List (String × String)
deriving DecidableEq

/-- Embedding of `RestClient::new` after a successful parse of the base URL:
no credentials, empty default header set. -/
def newClient (base : ModelUrl) : ClientState :=
  { baseurl := base, auth := none, headers := [] }

/-- Embedding of `RestClient::set_auth` (lib.rs lines 132-139): stores the
credentials; nothing else changes. -/
def set_auth (st : ClientState) (user pass : String) : ClientState :=
  { st with auth := some (user, pass) }

/-- Embedding of `RestClient::set_header_raw` (lib.rs lines 145-147): sets a
default header by name (lowercased, embedding hyper's case-insensitive
comparison). -/
def set_header_raw (st : ClientState) (name value : String) : ClientState :=
  { st with headers := headersSet st.headers name.toLower value }

/-- Embedding of `RestClient::clear_headers` (lib.rs lines 157-160): empties
the default header map; the credentials field is not touched. -/
def clear_headers (st : ClientState) : ClientState :=
  { st with headers := [] }

/-- Embedding of the `Error` enum (lib.rs lines 78-95). `HttpError` carries
the numeric status code and the collected body text. -/
inductive Error where
  | HttpClientError : Error
  | UrlError : Error
  | ParseError : Error
  | RequestError : Error
  | HttpError : Nat → String → Error
deriving DecidableEq

/-- HTTP methods used by the client (hyper's `Method` values passed in
lib.rs). -/
inductive MMethod where
  | get | post | put | delete
deriving DecidableEq

/-- Transport-ready request value (hyper `Request`): method, URI, the
headers set on it so far, and the optional body string. -/
structure MRequest where
  method : MMethod
  uri : ModelUrl
  headers : List (String × String)
  body : Option String
deriving DecidableEq

/-- Content headers that `RestClient::make_request` (lib.rs lines 320-326)
sets on a request: with a body, `Content-Length` is the body's byte length
and `Content-Type` is `application/json`; without a body no header is set. -/
def contentHeaders : Option String → List (String × String)
  | some b =>
      headersSet (headersSet [] "content-length" (toString b.utf8ByteSize))
        "content-type" "application/json"
  | none => []

/-- Embedding of `RestClient::make_request` (lib.rs lines 315-329). The
generic `T::get_path(params)` call is the caller-supplied path resolver; its
outcome is passed in as `pathResult` and propagated with `?`. The body, when
present, installs the content headers. -/
def make_request (st : ClientState) (method : MMethod) (pathResult : Except Error String)
    (query : Option (List (String × String))) (body : Option String) :
    Except Error MRequest :=
  match pathResult with
  | .error e => .error e
  | .ok p =>
      .ok { method := method, uri := make_uri st.baseurl p query,
            headers := contentHeaders body, body := body }

/-- Header overlay performed at the start of `RestClient::run_request`
(lib.rs lines 281-285): starting from the headers already on the request,
first `set` the Basic Authorization header when credentials are configured,
then `extend` with the client's default headers — each default header is
inserted into the request's header map, replacing an existing entry of the
same name. -/
def requestHeaders (st : ClientState) (reqHeaders : List (String × String)) :
    List (String × String) :=
  let withAuth := match st.auth with
    | some up => headersSet reqHeaders "authorization" (basicAuthValue up.1 up.2)
    | none => reqHeaders
  st.headers.foldl (fun acc nv => headersSet acc nv.1 nv.2) withAuth

/-- Request as actually sent by `run_request`: the builder's request with the
overlay of auth and default headers applied. -/
def sentRequest (st : ClientState) (req : MRequest) : MRequest :=
  { req with headers := requestHeaders st req.headers }

/-- Outcome of driving the transport (`self.core.run(req)` in lib.rs line
301): either a transport-level failure, or a delivered response with its
numeric status code and the raw body chunks. -/
inductive TransportOutcome where
  | failure : TransportOutcome
  | response : Nat → List (List Nat) → TransportOutcome

/-- Success class test of hyper's `StatusCode::is_success`: codes 200-299. -/
def statusIsSuccess (s : Nat) : Bool :=
  200 ≤ s && s < 300

/-- Embedding of `RestClient::run_request` (lib.rs lines 280-313): apply the
header overlay, drive the transport (modelled as a function from the sent
request to an outcome), collect the body chunks, and classify: transport
failure is `RequestError`; a delivered response returns the collected body
on a success-class status and `HttpError(status, body)` otherwise. -/
def run_request (st : ClientState) (req : MRequest)
    (transport : MRequest → TransportOutcome) : Except Error String :=
  match transport (sentRequest st req) with
  | .failure => .error .RequestError
  | .response status chunks =>
      let body := collectBody chunks
      if statusIsSuccess status then .ok body else .error (.HttpError status body)

/-- Result of one client operation: the value returned to the caller,
whether the transport was driven (network I/O happened), and the client
state after the call. -/
structure OpOutcome (α : Type) where
  result : Except Error α
  networkUsed : Bool
  state : ClientState

/-- Package an operation's result: the source operations never assign the
`baseurl`, `auth` or `headers` fields of `self`, so the final state is the
initial one. -/
def opState {α : Type} (st : ClientState) (core : Except Error α × Bool) : OpOutcome α :=
  { result := core.1, networkUsed := core.2, state := st }

/-- Core of `RestClient::get` (lib.rs lines 163-170): build the request with
no query and no body, run it, deserialize the body. The generic
`serde_json::from_str` deserializer is the caller-supplied `decode`;
failure maps to `ParseError`. -/
def get_core {α : Type} (st : ClientState) (pathResult : Except Error String)
    (transport : MRequest → TransportOutcome) (decode : String → Option α) :
    Except Error α × Bool :=
  match make_request st .get pathResult none none with
  | .error e => (.error e, false)
  | .ok req =>
      match run_request st req transport with
      | .error e => (.error e, true)
      | .ok body =>
          match decode body with
          | some v => (.ok v, true)
          | none => (.error .ParseError, true)

/-- Embedding of `RestClient::get`. -/
def get_op {α : Type} (st : ClientState) (pathResult : Except Error String)
    (transport : MRequest → TransportOutcome) (decode : String → Option α) : OpOutcome α :=
  opState st (get_core st pathResult transport decode)

/-- Core of `RestClient::get_with` (lib.rs lines 173-179): as `get` but with
query parameters. -/
def get_with_core {α : Type} (st : ClientState) (pathResult : Except Error String)
    (query : List (String × String)) (transport : MRequest → TransportOutcome)
    (decode : String → Option α) : Except Error α × Bool :=
  match make_request st .get pathResult (some query) none with
  | .error e => (.error e, false)
  | .ok req =>
      match run_request st req transport with
      | .error e => (.error e, true)
      | .ok body =>
          match decode body with
          | some v => (.ok v, true)
          | none => (.error .ParseError, true)

/-- Embedding of `RestClient::get_with`. -/
def get_with_op {α : Type} (st : ClientState) (pathResult : Except Error String)
    (query : List (String × String)) (transport : MRequest → TransportOutcome)
    (decode : String → Option α) : OpOutcome α :=
  opState st (get_with_core st pathResult query transport decode)

/-- Core of `RestClient::post_or_put` (lib.rs lines 193-200), the shared
implementation behind `post` and `put`: serialize the data first
(`encodeResult`, `none` meaning the JSON encoder failed, mapped to
`ParseError`), then build the request with the body and run it, discarding
the response body. -/
def post_or_put_core (st : ClientState) (method : MMethod)
    (encodeResult : Option String) (pathResult : Except Error String)
    (transport : MRequest → TransportOutcome) : Except Error Unit × Bool :=
  match encodeResult with
  | none => (.error .ParseError, false)
  | some data =>
      match make_request st method pathResult none (some data) with
      | .error e => (.error e, false)
      | .ok req =>
          match run_request st req transport with
          | .error e => (.error e, true)
          | .ok _ => (.ok (), true)

/-- Embedding of `RestClient::post_or_put` (shared by `post` and `put`). -/
def post_or_put_op (st : ClientState) (method : MMethod) (encodeResult : Option String)
    (pathResult : Except Error String) (transport : MRequest → TransportOutcome) :
    OpOutcome Unit :=
  opState st (post_or_put_core st method encodeResult pathResult transport)

/-- Core of `RestClient::post_or_put_with` (lib.rs lines 214-221), shared by
`post_with` and `put_with`. -/
def post_or_put_with_core (st : ClientState) (method : MMethod)
    (encodeResult : Option String) (pathResult : Except Error String)
    (query : List (String × String)) (transport : MRequest → TransportOutcome) :
    Except Error Unit × Bool :=
  match encodeResult with
  | none => (.error .ParseError, false)
  | some data =>
      match make_request st method pathResult (some query) (some data) with
      | .error e => (.error e, false)
      | .ok req =>
          match run_request st req transport with
          | .error e => (.error e, true)
          | .ok _ => (.ok (), true)

/-- Embedding of `RestClient::post_or_put_with`. -/
def post_or_put_with_op (st : ClientState) (method : MMethod) (encodeResult : Option String)
    (pathResult : Except Error String) (query : List (String × String))
    (transport : MRequest → TransportOutcome) : OpOutcome Unit :=
  opState st (post_or_put_with_core st method encodeResult pathResult query transport)

/-- Core of `RestClient::post_or_put_capture` (lib.rs lines 237-245), shared
by `post_capture` and `put_capture`: as `post_or_put` but the response body
is deserialized into the capture type. -/
def post_or_put_capture_core {α : Type} (st : ClientState) (method : MMethod)
    (encodeResult : Option String) (pathResult : Except Error String)
    (transport : MRequest → TransportOutcome) (decode : String → Option α) :
    Except Error α × Bool :=
  match encodeResult with
  | none => (.error .ParseError, false)
  | some data =>
      match make_request st method pathResult none (some data) with
      | .error e => (.error e, false)
      | .ok req =>
          match run_request st req transport with
          | .error e => (.error e, true)
          | .ok body =>
              match decode body with
              | some v => (.ok v, true)
              | none => (.error .ParseError, true)

/-- Embedding of `RestClient::post_or_put_capture`. -/
def post_or_put_capture_op {α : Type} (st : ClientState) (method : MMethod)
    (encodeResult : Option String) (pathResult : Except Error String)
    (transport : MRequest → TransportOutcome) (decode : String → Option α) : OpOutcome α :=
  opState st (post_or_put_capture_core st method encodeResult pathResult transport decode)

/-- Core of `RestClient::post_or_put_capture_with` (lib.rs lines 261-269),
shared by `post_capture_with` and `put_capture_with`. -/
def post_or_put_capture_with_core {α : Type} (st : ClientState) (method : MMethod)
    (encodeResult : Option String) (pathResult : Except Error String)
    (query : List (String × String)) (transport : MRequest → TransportOutcome)
    (decode : String → Option α) : Except Error α × Bool :=
  match encodeResult with
  | none => (.error .ParseError, false)
  | some data =>
      match make_request st method pathResult (some query) (some data) with
      | .error e => (.error e, false)
      | .ok req =>
          match run_request st req transport with
          | .error e => (.error e, true)
          | .ok body =>
              match decode body with
              | some v => (.ok v, true)
              | none => (.error .ParseError, true)

/-- Embedding of `RestClient::post_or_put_capture_with`. -/
def post_or_put_capture_with_op {α : Type} (st : ClientState) (method : MMethod)
    (encodeResult : Option String) (pathResult : Except Error String)
    (query : List (String × String)) (transport : MRequest → TransportOutcome)
    (decode : String → Option α) : OpOutcome α :=
  opState st
    (post_or_put_capture_with_core st method encodeResult pathResult query transport decode)

/-- Core of `RestClient::delete` (lib.rs lines 272-278): build the request
with no query and no body, run it, discard the body. -/
def delete_core (st : ClientState) (pathResult : Except Error String)
    (transport : MRequest → TransportOutcome) : Except Error Unit × Bool :=
  match make_request st .delete pathResult none none with
  | .error e => (.error e, false)
  | .ok req =>
      match run_request st req transport with
      | .error e => (.error e, true)
      | .ok _ => (.ok (), true)

/-- Embedding of `RestClient::delete`. -/
def delete_op (st : ClientState) (pathResult : Except Error String)
    (transport : MRequest → TransportOutcome) : OpOutcome Unit :=
  opState st (delete_core st pathResult transport)

/-- Serialized query string for an ordered pair list, written after the
spec's words: the pairs of the list in exactly the caller-supplied order,
each serialized as `key=value` and joined with ampersands. Used as the
specification side of the refinement proved about `make_uri`. -/
def serializeQuery : List (String × String) → String
  | [] => ""
  | [kv] => queryPairString kv.1 kv.2
  | kv :: kv2 :: rest => queryPairString kv.1 kv.2 ++ "&" ++ serializeQuery (kv2 :: rest)

/-- Concrete base URL used to evaluate the theorems on explicit inputs. -/
def exUrl : ModelUrl :=
  { scheme := "http", authority := "example.com", path := "/old", query := none }

/-- Concrete client state used to evaluate the theorems on explicit inputs. -/
def exState : ClientState :=
  { baseurl := exUrl, auth := none, headers := [] }

/-- Concrete request used to evaluate the theorems on explicit inputs. -/
def exReq : MRequest :=
  { method := .get, uri := exUrl, headers := [], body := none }

example : stringFromUtf8Lossy [0x61, 0xC3, 0xA9] = "aé" := by decide
example : stringFromUtf8Lossy [0xC3] = "�" := by decide
example : collectBody [[0xC3], [0xA9]] ≠ collectBody [[0xC3, 0xA9]] := by decide
example :
    (make_uri exUrl "path" (some [("a", "1"), ("b", "2 c")])).query =
      some "a=1&b=2+c" := by decide
example : (make_uri exUrl "anything" none).path = "/anything" := by decide
example : (make_uri exUrl "a/../b" none).path = "/b" := by decide
example : (make_uri exUrl "a/." none).path = "/a/" := by decide
example : (make_uri exUrl "a/.." none).path = "/" := by decide
example : (make_uri exUrl "a\\b" none).path = "/a/b" := by decide
example : (make_uri exUrl "a/%2e%2E/b" none).path = "/b" := by decide
example : (make_uri exUrl "" none).path = "/" := by decide
example : (make_uri exUrl "a b?c" none).path = "/a%20b%3Fc" := by decide

/-! Helper lemmas about the header map operations. -/

theorem find?_filter_out_eq_none (hs : List (String × String)) (k : String) :
    (hs.filter (fun p => !(p.1 == k))).find? (fun p => p.1 == k) = none := by
  rw [List.find?_eq_none]
  intro x hx
  have hq := (List.mem_filter.mp hx).2
  simpa using hq

theorem headersGet_set_self (hs : List (String × String)) (k v : String) :
    headersGet (headersSet hs k v) k = some v := by
  unfold headersGet headersSet
  rw [List.find?_append, find?_filter_out_eq_none]
  simp [List.find?]

theorem find?_filter_out_ne (hs : List (String × String)) (k k2 : String) (h : k ≠ k2) :
    (hs.filter (fun p => !(p.1 == k))).find? (fun p => p.1 == k2) =
      hs.find? (fun p => p.1 == k2) := by
  have hkk2 : (k == k2) = false := by simp [h]
  induction hs with
  | nil => rfl
  | cons a t ih =>
    by_cases hak : a.1 = k
    · simp [List.filter_cons, List.find?_cons, hak, hkk2, Ne.symm h, ih]
    · by_cases hak2 : a.1 = k2
      · simp [List.filter_cons, List.find?_cons, hak, hak2, Ne.symm h]
      · simp [List.filter_cons, List.find?_cons, hak, hak2, ih]

theorem headersGet_set_ne (hs : List (String × String)) (k v k2 : String) (h : k ≠ k2) :
    headersGet (headersSet hs k v) k2 = headersGet hs k2 := by
  unfold headersGet headersSet
  rw [List.find?_append, find?_filter_out_ne hs k k2 h]
  have hlast : ([(k, v)].find? (fun p => p.1 == k2)) = none := by
    have hkk2 : (k == k2) = false := by simp [h]
    simp [List.find?, hkk2]
  rw [hlast, Option.or_none]

theorem headersGet_eq_none_iff (hs : List (String × String)) (k : String) :
    headersGet hs k = none ↔ ∀ x ∈ hs, x.1 ≠ k := by
  unfold headersGet
  rw [Option.map_eq_none', List.find?_eq_none]
  simp

theorem headersGet_foldl_set_of_not_mem (ds : List (String × String))
    (acc : List (String × String)) (k : String) (h : ∀ d ∈ ds, d.1 ≠ k) :
    headersGet (ds.foldl (fun a nv => headersSet a nv.1 nv.2) acc) k = headersGet acc k := by
  induction ds generalizing acc with
  | nil => rfl
  | cons d t ih =>
    rw [List.foldl_cons, ih _ (fun x hx => h x (List.mem_cons_of_mem _ hx))]
    exact headersGet_set_ne acc d.1 d.2 k (h d (List.mem_cons_self _ _))

theorem headersGet_foldl_set_of_get (ds : List (String × String))
    (acc : List (String × String)) (k v : String)
    (hnd : (ds.map Prod.fst).Nodup) (hget : headersGet ds k = some v) :
    headersGet (ds.foldl (fun a nv => headersSet a nv.1 nv.2) acc) k = some v := by
  induction ds generalizing acc with
  | nil => simp [headersGet, List.find?] at hget
  | cons d t ih =>
    rw [List.map_cons, List.nodup_cons] at hnd
    by_cases hdk : d.1 = k
    · have hv : d.2 = v := by
        unfold headersGet at hget
        simp [List.find?_cons, hdk] at hget
        exact hget
      have hnok : ∀ x ∈ t, x.1 ≠ k := by
        intro x hx hxk
        exact hnd.1 (hdk ▸ hxk ▸ List.mem_map_of_mem Prod.fst hx)
      rw [List.foldl_cons, headersGet_foldl_set_of_not_mem t _ k hnok, ← hdk, ← hv]
      exact headersGet_set_self acc d.1 d.2
    · have hget' : headersGet t k = some v := by
        unfold headersGet at hget ⊢
        simp only [List.find?_cons] at hget
        have hbeq : (d.1 == k) = false := by simp [hdk]
        rw [hbeq] at hget
        exact hget
      rw [List.foldl_cons]
      exact ih (headersSet acc d.1 d.2) hnd.2 hget'

/-! Helper lemmas about URI construction. -/

theorem str_append_mid_ne_empty (a m b : String) (h : m.length ≠ 0) :
    a ++ m ++ b ≠ "" := by
  intro hc
  have hlen := congrArg String.length hc
  rw [String.length_append (a ++ m) b, String.length_append a m] at hlen
  have h0 : ("" : String).length = 0 := rfl
  rw [h0] at hlen
  omega

theorem queryPairString_length_pos (k v : String) : queryPairString k v ≠ "" := by
  unfold queryPairString
  exact str_append_mid_ne_empty (formEncode k) "=" (formEncode v) (by decide)

theorem foldl_appendPair_query_nonempty (ps : List (String × String)) (u : ModelUrl)
    (s : String) (hps : ps ≠ []) (hs : s ≠ "") (hq : u.query = some s) :
    (ps.foldl (fun acc kv => appendPair acc kv.1 kv.2) u).query =
      some (s ++ "&" ++ serializeQuery ps) := by
  induction ps generalizing u s with
  | nil => exact absurd rfl hps
  | cons a t ih =>
    have hstep : (appendPair u a.1 a.2).query = some (s ++ "&" ++ queryPairString a.1 a.2) := by
      unfold appendPair
      rw [hq]
      simp [hs]
    cases t with
    | nil =>
      rw [List.foldl_cons, List.foldl_nil, hstep]
      rfl
    | cons b r =>
      rw [List.foldl_cons]
      have hs' : s ++ "&" ++ queryPairString a.1 a.2 ≠ "" :=
        str_append_mid_ne_empty s "&" (queryPairString a.1 a.2) (by decide)
      rw [ih (appendPair u a.1 a.2) (s ++ "&" ++ queryPairString a.1 a.2)
        (List.cons_ne_nil b r) hs' hstep]
      have hassoc : s ++ "&" ++ queryPairString a.1 a.2 ++ "&" ++ serializeQuery (b :: r) =
          s ++ "&" ++ (queryPairString a.1 a.2 ++ "&" ++ serializeQuery (b :: r)) := by
        rw [String.append_assoc (s ++ "&") (queryPairString a.1 a.2) "&",
          String.append_assoc (s ++ "&") (queryPairString a.1 a.2 ++ "&")
            (serializeQuery (b :: r)),
          String.append_assoc (queryPairString a.1 a.2) "&" (serializeQuery (b :: r))]
      rw [hassoc]
      rfl

theorem foldl_appendPair_query_from_none (ps : List (String × String)) (u : ModelUrl)
    (hq : u.query = none) :
    (ps.foldl (fun acc kv => appendPair acc kv.1 kv.2) u).query =
      (if ps = [] then none else some (serializeQuery ps)) := by
  cases ps with
  | nil => simpa using hq
  | cons a t =>
    rw [if_neg (List.cons_ne_nil a t)]
    have hstep : (appendPair u a.1 a.2).query = some (queryPairString a.1 a.2) := by
      unfold appendPair
      rw [hq]
    cases t with
    | nil =>
      rw [List.foldl_cons, List.foldl_nil, hstep]
      rfl
    | cons b r =>
      rw [List.foldl_cons]
      rw [foldl_appendPair_query_nonempty (b :: r) (appendPair u a.1 a.2)
        (queryPairString a.1 a.2) (List.cons_ne_nil b r)
        (queryPairString_length_pos a.1 a.2) hstep]
      rfl

/-! Helper lemmas: no operation assigns the claim-relevant client fields,
so each operation returns the state it started from. -/

theorem get_op_state (α : Type) (st : ClientState) (pr : Except Error String)
    (tr : MRequest → TransportOutcome) (dec : String → Option α) :
    (get_op st pr tr dec).state = st := rfl

theorem get_with_op_state (α : Type) (st : ClientState) (pr : Except Error String)
    (q : List (String × String)) (tr : MRequest → TransportOutcome)
    (dec : String → Option α) : (get_with_op st pr q tr dec).state = st := rfl

theorem post_or_put_op_state (st : ClientState) (m : MMethod) (enc : Option String)
    (pr : Except Error String) (tr : MRequest → TransportOutcome) :
    (post_or_put_op st m enc pr tr).state = st := rfl

theorem post_or_put_with_op_state (st : ClientState) (m : MMethod) (enc : Option String)
    (pr : Except Error String) (q : List (String × String))
    (tr : MRequest → TransportOutcome) :
    (post_or_put_with_op st m enc pr q tr).state = st := rfl

theorem post_or_put_capture_op_state (α : Type) (st : ClientState) (m : MMethod)
    (enc : Option String) (pr : Except Error String) (tr : MRequest → TransportOutcome)
    (dec : String → Option α) :
    (post_or_put_capture_op st m enc pr tr dec).state = st := rfl

theorem post_or_put_capture_with_op_state (α : Type) (st : ClientState) (m : MMethod)
    (enc : Option String) (pr : Except Error String) (q : List (String × String))
    (tr : MRequest → TransportOutcome) (dec : String → Option α) :
    (post_or_put_capture_with_op st m enc pr q tr dec).state = st := rfl

theorem delete_op_state (st : ClientState) (pr : Except Error String)
    (tr : MRequest → TransportOutcome) : (delete_op st pr tr).state = st := rfl

/-! Helper lemmas about lossy UTF-8 decoding. -/

theorem replacement_mem_of_invalid (bs : List Nat) (h : utf8Valid bs = false) :
    replacementChar ∈ (stringFromUtf8Lossy bs).data := by
  unfold utf8Valid at h
  have hex : ∃ o ∈ utf8DecodeAux bs, ¬ (o.isSome = true) := by
    by_contra hc
    push_neg at hc
    have hall : (utf8DecodeAux bs).all (fun o => o.isSome) = true :=
      List.all_eq_true.mpr (fun o ho => hc o ho)
    rw [hall] at h
    exact absurd h (by simp)
  obtain ⟨o, ho, hno⟩ := hex
  have hon : o = none := by
    cases o with
    | none => rfl
    | some c => exact absurd rfl hno
  have hmem := List.mem_map_of_mem (fun o => Option.getD o replacementChar) ho
  rw [hon] at hmem
  exact hmem

theorem statusIsSuccess_iff (s : Nat) : statusIsSuccess s = true ↔ (200 ≤ s ∧ s ≤ 299) := by
  unfold statusIsSuccess
  simp only [Bool.and_eq_true, decide_eq_true_eq]
  omega

theorem aux_one_byte (b : Nat) (rest : List Nat) (h : b < 0x80) :
    utf8DecodeAux (b :: rest) = some (Char.ofNat b) :: utf8DecodeAux rest := by
  rw [utf8DecodeAux.eq_def]
  simp only [if_pos h]

theorem aux_two_byte (b1 b2 : Nat) (rest : List Nat)
    (h1 : 0xC2 ≤ b1) (h2 : b1 ≤ 0xDF) (h3 : 0x80 ≤ b2) (h4 : b2 ≤ 0xBF) :
    utf8DecodeAux (b1 :: b2 :: rest) =
      some (Char.ofNat ((b1 - 0xC0) * 64 + (b2 - 0x80))) :: utf8DecodeAux rest := by
  rw [utf8DecodeAux.eq_def]
  have hn1 : ¬ (b1 < 0x80) := by omega
  have hc : (0xC2 ≤ b1 && b1 ≤ 0xDF) = true := by
    simp only [Bool.and_eq_true, decide_eq_true_eq]
    exact ⟨h1, h2⟩
  have hcont : isCont b2 = true := by
    unfold isCont
    simp only [Bool.and_eq_true, decide_eq_true_eq]
    exact ⟨h3, h4⟩
  simp only [if_neg hn1, if_pos hc, hcont, if_true]

theorem aux_three_byte (b1 b2 b3 : Nat) (rest : List Nat)
    (h1 : 0xE0 ≤ b1) (h2 : b1 ≤ 0xEF) (hv : validSecond b1 b2 = true)
    (h3 : isCont b3 = true) :
    utf8DecodeAux (b1 :: b2 :: b3 :: rest) =
      some (Char.ofNat ((b1 - 0xE0) * 4096 + (b2 - 0x80) * 64 + (b3 - 0x80))) ::
        utf8DecodeAux rest := by
  rw [utf8DecodeAux.eq_def]
  have hn1 : ¬ (b1 < 0x80) := by omega
  have hc2 : (0xC2 ≤ b1 && b1 ≤ 0xDF) = false := by
    have hf : decide (b1 ≤ 0xDF) = false := decide_eq_false (by omega)
    rw [hf, Bool.and_false]
  have hc3 : (0xE0 ≤ b1 && b1 ≤ 0xEF) = true := by
    simp only [Bool.and_eq_true, decide_eq_true_eq]
    exact ⟨h1, h2⟩
  simp only [if_neg hn1, hc2, hc3, hv, h3, Bool.false_eq_true, if_false, if_true]

theorem aux_four_byte (b1 b2 b3 b4 : Nat) (rest : List Nat)
    (h1 : 0xF0 ≤ b1) (h2 : b1 ≤ 0xF4) (hv : validSecond b1 b2 = true)
    (h3 : isCont b3 = true) (h4 : isCont b4 = true) :
    utf8DecodeAux (b1 :: b2 :: b3 :: b4 :: rest) =
      some (Char.ofNat ((b1 - 0xF0) * 262144 + (b2 - 0x80) * 4096 +
        (b3 - 0x80) * 64 + (b4 - 0x80))) :: utf8DecodeAux rest := by
  rw [utf8DecodeAux.eq_def]
  have hn1 : ¬ (b1 < 0x80) := by omega
  have hc2 : (0xC2 ≤ b1 && b1 ≤ 0xDF) = false := by
    have hf : decide (b1 ≤ 0xDF) = false := decide_eq_false (by omega)
    rw [hf, Bool.and_false]
  have hc3 : (0xE0 ≤ b1 && b1 ≤ 0xEF) = false := by
    have hf : decide (b1 ≤ 0xEF) = false := decide_eq_false (by omega)
    rw [hf, Bool.and_false]
  have hc4 : (0xF0 ≤ b1 && b1 ≤ 0xF4) = true := by
    simp only [Bool.and_eq_true, decide_eq_true_eq]
    exact ⟨h1, h2⟩
  simp only [if_neg hn1, hc2, hc3, hc4, hv, h3, h4, Bool.false_eq_true, if_false, if_true]

theorem isCont_mod64 (m : Nat) : isCont (0x80 + m % 64) = true := by
  unfold isCont
  simp only [Bool.and_eq_true, decide_eq_true_eq]
  constructor <;> omega

theorem utf8DecodeAux_char_append (c : Char) (rest : List Nat) :
    utf8DecodeAux (charUtf8Bytes c ++ rest) = some c :: utf8DecodeAux rest := by
  have hval : c.toNat < 0xD800 ∨ (0xDFFF < c.toNat ∧ c.toNat < 0x110000) := by
    have h := c.valid
    cases h with
    | inl h => left; exact_mod_cast h
    | inr h => right; exact ⟨by exact_mod_cast h.1, by exact_mod_cast h.2⟩
  simp only [charUtf8Bytes]
  by_cases h1 : c.toNat < 0x80
  · simp only [if_pos h1, List.cons_append, List.nil_append]
    rw [aux_one_byte c.toNat rest h1, Char.ofNat_toNat]
  · by_cases h2 : c.toNat < 0x800
    · simp only [if_neg h1, if_pos h2, List.cons_append, List.nil_append]
      rw [aux_two_byte _ _ rest (by omega) (by omega) (by omega) (by omega)]
      have harith : (0xC0 + c.toNat / 64 - 0xC0) * 64 + (0x80 + c.toNat % 64 - 0x80) =
          c.toNat := by omega
      rw [harith, Char.ofNat_toNat]
    · by_cases h3 : c.toNat < 0x10000
      · simp only [if_neg h1, if_neg h2, if_pos h3, List.cons_append, List.nil_append]
        have hvs : validSecond (0xE0 + c.toNat / 4096) (0x80 + (c.toNat / 64) % 64) =
            true := by
          unfold validSecond
          by_cases he0 : (0xE0 + c.toNat / 4096) = 0xE0
          · rw [if_pos he0]
            simp only [Bool.and_eq_true, decide_eq_true_eq]
            constructor <;> omega
          · rw [if_neg he0]
            by_cases hed : (0xE0 + c.toNat / 4096) = 0xED
            · rw [if_pos hed]
              simp only [Bool.and_eq_true, decide_eq_true_eq]
              constructor <;> omega
            · rw [if_neg hed, if_neg (by omega : ¬ (0xE0 + c.toNat / 4096) = 0xF0),
                if_neg (by omega : ¬ (0xE0 + c.toNat / 4096) = 0xF4)]
              exact isCont_mod64 (c.toNat / 64)
        rw [aux_three_byte _ _ _ rest (by omega) (by omega) hvs (isCont_mod64 c.toNat)]
        have harith : (0xE0 + c.toNat / 4096 - 0xE0) * 4096 +
            (0x80 + (c.toNat / 64) % 64 - 0x80) * 64 + (0x80 + c.toNat % 64 - 0x80) =
            c.toNat := by omega
        rw [harith, Char.ofNat_toNat]
      · simp only [if_neg h1, if_neg h2, if_neg h3, List.cons_append, List.nil_append]
        have hvs : validSecond (0xF0 + c.toNat / 262144) (0x80 + (c.toNat / 4096) % 64) =
            true := by
          unfold validSecond
          rw [if_neg (by omega : ¬ (0xF0 + c.toNat / 262144) = 0xE0),
            if_neg (by omega : ¬ (0xF0 + c.toNat / 262144) = 0xED)]
          by_cases hf0 : (0xF0 + c.toNat / 262144) = 0xF0
          · rw [if_pos hf0]
            simp only [Bool.and_eq_true, decide_eq_true_eq]
            constructor <;> omega
          · rw [if_neg hf0]
            by_cases hf4 : (0xF0 + c.toNat / 262144) = 0xF4
            · rw [if_pos hf4]
              simp only [Bool.and_eq_true, decide_eq_true_eq]
              constructor <;> omega
            · rw [if_neg hf4]
              exact isCont_mod64 (c.toNat / 4096)
        rw [aux_four_byte _ _ _ _ rest (by omega) (by omega) hvs
          (isCont_mod64 (c.toNat / 64)) (isCont_mod64 c.toNat)]
        have harith : (0xF0 + c.toNat / 262144 - 0xF0) * 262144 +
            (0x80 + (c.toNat / 4096) % 64 - 0x80) * 4096 +
            (0x80 + (c.toNat / 64) % 64 - 0x80) * 64 + (0x80 + c.toNat % 64 - 0x80) =
            c.toNat := by omega
        rw [harith, Char.ofNat_toNat]

theorem utf8DecodeAux_encode (l : List Char) :
    utf8DecodeAux (l.flatMap charUtf8Bytes) = l.map some := by
  induction l with
  | nil => rfl
  | cons c t ih => rw [List.flatMap_cons, utf8DecodeAux_char_append, ih, List.map_cons]

theorem lossy_roundtrip (s : String) : stringFromUtf8Lossy (strUtf8Bytes s) = s := by
  unfold stringFromUtf8Lossy strUtf8Bytes
  rw [utf8DecodeAux_encode]
  cases s with
  | mk l =>
    simp only [List.map_map]
    have hmap : l.map ((fun o => Option.getD o replacementChar) ∘ some) = l := by
      rw [show ((fun o => Option.getD o replacementChar) ∘ some) = @id Char from rfl,
        List.map_id]
    rw [hmap]

/-! Theorems settling the claims. -/

/-- C1 counterexample: with credentials configured and a default header that
also names Authorization, the value sent is the default header's, not the
Basic-auth value — at this concrete input the claim's conflict rule fails. -/
theorem run_request_header_overlay_counterexample :
    headersGet
      (requestHeaders
        { baseurl := exUrl, auth := some ("user", "pass"),
          headers := [("authorization", "Bearer token")] } [])
      "authorization" = some "Bearer token" ∧
    basicAuthValue "user" "pass" ≠ "Bearer token" := by
  constructor
  · decide
  · decide

/-- C1 (amended): for every request executed by the client, the header set
is assembled by starting from the request's own (content) headers,
overlaying the Basic-auth header when credentials are configured, and then
overlaying the client's default header set; in particular, when a default
header and the auth header both name Authorization, the default header's
value is the one sent, and the Basic-auth value is sent when no default
header names Authorization. -/
theorem run_request_header_overlay_amended (st : ClientState)
    (rh : List (String × String)) (u p : String) (hauth : st.auth = some (u, p))
    (hnd : (st.headers.map Prod.fst).Nodup) :
    (∀ v, headersGet st.headers "authorization" = some v →
      headersGet (requestHeaders st rh) "authorization" = some v) ∧
    (headersGet st.headers "authorization" = none →
      headersGet (requestHeaders st rh) "authorization" = some (basicAuthValue u p)) := by
  constructor
  · intro v hv
    unfold requestHeaders
    rw [hauth]
    exact headersGet_foldl_set_of_get st.headers _ "authorization" v hnd hv
  · intro hnone
    unfold requestHeaders
    rw [hauth]
    have hnok := (headersGet_eq_none_iff st.headers "authorization").mp hnone
    rw [headersGet_foldl_set_of_not_mem st.headers _ "authorization" hnok]
    exact headersGet_set_self rh "authorization" (basicAuthValue u p)

/-- C1 witness: the amended overlay rule evaluated at a concrete client. -/
theorem run_request_header_overlay_amended_witness :
    headersGet
      (requestHeaders
        { baseurl := exUrl, auth := some ("user", "pass"),
          headers := [("accept", "application/json")] } [])
      "authorization" = some (basicAuthValue "user" "pass") := by
  have h := run_request_header_overlay_amended
    { baseurl := exUrl, auth := some ("user", "pass"),
      headers := [("accept", "application/json")] } [] "user" "pass" rfl (by decide)
  exact h.2 (by decide)

/-- C2: on transport delivery with status `s` and collected body `b`, a
success-class status (200-299) returns `b` as `Ok` and any other status
returns `HttpError(s, b)` with the body unchanged. -/
theorem run_request_status_classification (st : ClientState) (req : MRequest)
    (transport : MRequest → TransportOutcome) (s : Nat) (chunks : List (List Nat))
    (h : transport (sentRequest st req) = .response s chunks) :
    (200 ≤ s ∧ s ≤ 299 → run_request st req transport = .ok (collectBody chunks)) ∧
    (¬(200 ≤ s ∧ s ≤ 299) →
      run_request st req transport = .error (.HttpError s (collectBody chunks))) := by
  unfold run_request
  rw [h]
  constructor
  · intro hrange
    have hb : statusIsSuccess s = true := (statusIsSuccess_iff s).mpr hrange
    simp [hb]
  · intro hrange
    have hb : statusIsSuccess s = false := by
      by_contra hc
      exact hrange ((statusIsSuccess_iff s).mp (by revert hc; cases statusIsSuccess s <;> simp))
    simp [hb]

/-- C2 witness: a 404 delivery with body text is returned as
`HttpError(404, body)` at a concrete input. -/
theorem run_request_status_classification_witness :
    run_request exState exReq (fun _ => .response 404 [strUtf8Bytes "not found"]) =
      .error (.HttpError 404 "not found") := by
  have h := run_request_status_classification exState exReq
    (fun _ => .response 404 [strUtf8Bytes "not found"]) 404 [strUtf8Bytes "not found"] rfl
  rw [h.2 (by omega)]
  have hb : collectBody [strUtf8Bytes "not found"] = "not found" := by decide
  rw [hb]

/-- C4 counterexample: the query `[(a,1),(b,2 c)]` serializes to
`a=1&b=2+c`: the form-urlencoded serializer writes space as a plus sign,
not `%20`, so the claimed query string `a=1&b=2%20c` is not produced. -/
theorem make_uri_query_order_counterexample :
    (make_uri exUrl "path" (some [("a", "1"), ("b", "2 c")])).query = some "a=1&b=2+c" ∧
    (make_uri exUrl "path" (some [("a", "1"), ("b", "2 c")])).query ≠
      some "a=1&b=2%20c" := by
  constructor
  · decide
  · decide

/-- C4 (amended): for every ordered query list passed to a `_with`
operation (on a base URI carrying no query of its own), the constructed
URI's query string emits the pairs in exactly the caller-supplied order,
every pair is emitted even when keys are duplicated, and keys and values
are encoded with the form-urlencoded encoding, in which space becomes a
plus sign and other special bytes are percent-encoded; the example list
`[(a,1),(b,2 c)]` yields `a=1&b=2+c`. -/
theorem make_uri_query_order_amended (base : ModelUrl) (p : String)
    (q : List (String × String)) (hq : base.query = none) :
    (make_uri base p (some q)).query =
      (if q = [] then none else some (serializeQuery q)) := by
  unfold make_uri
  exact foldl_appendPair_query_from_none q (urlSetPath base p) hq

/-- C4 witness: the amended statement evaluated on a duplicate-key list and
on the spec's example list. -/
theorem make_uri_query_order_amended_witness :
    (make_uri exUrl "path" (some [("k", "1"), ("k", "2")])).query = some "k=1&k=2" ∧
    (make_uri exUrl "path" (some [("a", "1"), ("b", "2 c")])).query =
      some "a=1&b=2+c" := by
  constructor
  · rw [make_uri_query_order_amended exUrl "path" [("k", "1"), ("k", "2")] rfl]
    decide
  · rw [make_uri_query_order_amended exUrl "path" [("a", "1"), ("b", "2 c")] rfl]
    decide

/-- C5: when the path resolver returns an error (for get, get_with, delete,
and the body-carrying operations) or the JSON encoder fails (for the
body-carrying operations), the call returns that typed error and the
transport is never driven: no network I/O occurs. -/
theorem no_network_before_resolver_or_encoder_error (α : Type) (st : ClientState)
    (m : MMethod) (transport : MRequest → TransportOutcome) (e : Error) (data : String)
    (pr : Except Error String) (decode : String → Option α)
    (q : List (String × String)) :
    ((get_op st (.error e) transport decode).result = .error e ∧
      (get_op st (.error e) transport decode).networkUsed = false) ∧
    ((get_with_op st (.error e) q transport decode).result = .error e ∧
      (get_with_op st (.error e) q transport decode).networkUsed = false) ∧
    ((delete_op st (.error e) transport).result = .error e ∧
      (delete_op st (.error e) transport).networkUsed = false) ∧
    ((post_or_put_op st m none pr transport).result = .error .ParseError ∧
      (post_or_put_op st m none pr transport).networkUsed = false) ∧
    ((post_or_put_op st m (some data) (.error e) transport).result = .error e ∧
      (post_or_put_op st m (some data) (.error e) transport).networkUsed = false) ∧
    ((post_or_put_with_op st m none pr q transport).result = .error .ParseError ∧
      (post_or_put_with_op st m none pr q transport).networkUsed = false) ∧
    ((post_or_put_with_op st m (some data) (.error e) q transport).result = .error e ∧
      (post_or_put_with_op st m (some data) (.error e) q transport).networkUsed = false) ∧
    ((post_or_put_capture_op st m none pr transport decode).result = .error .ParseError ∧
      (post_or_put_capture_op st m none pr transport decode).networkUsed = false) ∧
    ((post_or_put_capture_op st m (some data) (.error e) transport decode).result =
        .error e ∧
      (post_or_put_capture_op st m (some data) (.error e) transport decode).networkUsed =
        false) ∧
    ((post_or_put_capture_with_op st m none pr q transport decode).result =
        .error .ParseError ∧
      (post_or_put_capture_with_op st m none pr q transport decode).networkUsed = false) ∧
    ((post_or_put_capture_with_op st m (some data) (.error e) q transport decode).result =
        .error e ∧
      (post_or_put_capture_with_op st m (some data) (.error e) q transport
        decode).networkUsed = false) :=
  ⟨⟨rfl, rfl⟩, ⟨rfl, rfl⟩, ⟨rfl, rfl⟩, ⟨rfl, rfl⟩, ⟨rfl, rfl⟩, ⟨rfl, rfl⟩,
    ⟨rfl, rfl⟩, ⟨rfl, rfl⟩, ⟨rfl, rfl⟩, ⟨rfl, rfl⟩, ⟨rfl, rfl⟩⟩

/-- C6: a request built with a body carries `Content-Length` equal to the
body's byte length and `Content-Type` `application/json`; a request built
without a body carries no header from the builder. -/
theorem make_request_content_headers (st : ClientState) (m : MMethod)
    (pr : Except Error String) (q : Option (List (String × String))) :
    (∀ b req, make_request st m pr q (some b) = .ok req →
      headersGet req.headers "content-length" = some (toString b.utf8ByteSize) ∧
      headersGet req.headers "content-type" = some "application/json") ∧
    (∀ req, make_request st m pr q none = .ok req → req.headers = []) := by
  constructor
  · intro b req h
    cases pr with
    | error e => exact absurd h (by simp [make_request])
    | ok p =>
      have hh : make_request st m (.ok p) q (some b) =
          .ok { method := m, uri := make_uri st.baseurl p q,
                headers := contentHeaders (some b), body := some b } := rfl
      rw [hh] at h
      injection h with h
      rw [← h]
      exact ⟨rfl, rfl⟩
  · intro req h
    cases pr with
    | error e => exact absurd h (by simp [make_request])
    | ok p =>
      have hh : make_request st m (.ok p) q none =
          .ok { method := m, uri := make_uri st.baseurl p q,
                headers := contentHeaders none, body := none } := rfl
      rw [hh] at h
      injection h with h
      rw [← h]
      rfl

/-- C6 witness: the content headers evaluated at a concrete two-byte body. -/
theorem make_request_content_headers_witness :
    headersGet (contentHeaders (some "ab")) "content-length" = some "2" ∧
    headersGet (contentHeaders (some "ab")) "content-type" = some "application/json" := by
  have h := (make_request_content_headers exState .post (.ok "/p") none).1 "ab"
    { method := .post, uri := make_uri exState.baseurl "/p" none,
      headers := contentHeaders (some "ab"), body := some "ab" } rfl
  exact ⟨h.1.trans (by decide), h.2⟩

/-- C7: body collection concatenates the chunks decoded as UTF-8 with lossy
substitution, is total (it is a plain function on any byte chunks), decodes
every correctly encoded string back to itself, and on an invalid chunk
substitutes the replacement character instead of failing. -/
theorem collect_body_lossy_utf8 (chunks : List (List Nat)) :
    collectBody chunks = String.join (chunks.map stringFromUtf8Lossy) ∧
    (∀ s : String, stringFromUtf8Lossy (strUtf8Bytes s) = s) ∧
    (∀ bs : List Nat, utf8Valid bs = false →
      replacementChar ∈ (stringFromUtf8Lossy bs).data) :=
  ⟨rfl, lossy_roundtrip, replacement_mem_of_invalid⟩

/-- C7 witness: body collection evaluated on a valid chunk list and the
replacement substitution evaluated on the invalid byte FF. -/
theorem collect_body_lossy_utf8_witness :
    collectBody [[0x6F, 0x6B]] = "ok" ∧
    replacementChar ∈ (stringFromUtf8Lossy [0xFF]).data := by
  have h := collect_body_lossy_utf8 [[0x6F, 0x6B]]
  refine ⟨?_, h.2.2 [0xFF] (by decide)⟩
  rw [h.1]
  decide

/-- C8 counterexample: after `set_auth` followed by `clear_headers` (the
only header-clearing operation), the credentials are still stored and the
next request still carries the Basic-auth header: no operation clears the
credentials, contrary to the claim. -/
theorem set_auth_no_clear_counterexample :
    (clear_headers (set_auth (newClient exUrl) "user" "pass")).auth =
      some ("user", "pass") ∧
    headersGet
      (requestHeaders (clear_headers (set_auth (newClient exUrl) "user" "pass")) [])
      "authorization" = some (basicAuthValue "user" "pass") := by
  constructor
  · decide
  · decide

/-- C8 (amended): after `set_auth(user, pass)`, every subsequent request
(whose default header set contains no Authorization entry of its own)
carries the Basic-auth header for those credentials until they are
overwritten by a later `set_auth`; no operation clears them: `clear_headers`
and `set_header_raw` leave the credentials unchanged (`clear_headers`
removes only the default headers), request operations leave the whole state
unchanged, and only `set_auth` replaces the credentials. -/
theorem set_auth_persistence_amended (st : ClientState) (user pass u2 p2 n v : String)
    (rh : List (String × String)) (pr : Except Error String)
    (tr : MRequest → TransportOutcome)
    (hnone : headersGet st.headers "authorization" = none) :
    headersGet (requestHeaders (set_auth st user pass) rh) "authorization" =
      some (basicAuthValue user pass) ∧
    (clear_headers (set_auth st user pass)).auth = some (user, pass) ∧
    (set_header_raw (set_auth st user pass) n v).auth = some (user, pass) ∧
    (delete_op (set_auth st user pass) pr tr).state = set_auth st user pass ∧
    (set_auth (set_auth st user pass) u2 p2).auth = some (u2, p2) := by
  refine ⟨?_, rfl, rfl, delete_op_state (set_auth st user pass) pr tr, rfl⟩
  unfold requestHeaders
  have hget : (set_auth st user pass).auth = some (user, pass) := rfl
  rw [hget]
  have hnok := (headersGet_eq_none_iff st.headers "authorization").mp hnone
  have hsame : (set_auth st user pass).headers = st.headers := rfl
  rw [hsame, headersGet_foldl_set_of_not_mem st.headers _ "authorization" hnok]
  exact headersGet_set_self rh "authorization" (basicAuthValue user pass)

/-- C8 witness: the amended persistence rule evaluated at a concrete
client. -/
theorem set_auth_persistence_amended_witness :
    headersGet (requestHeaders (set_auth exState "user" "pass") []) "authorization" =
      some (basicAuthValue "user" "pass") ∧
    (clear_headers (set_auth exState "user" "pass")).auth = some ("user", "pass") := by
  have h := set_auth_persistence_amended exState "user" "pass" "u" "p" "x-key" "val" []
    (.ok "/p") (fun _ => .failure) (by decide)
  exact ⟨h.1, h.2.1⟩

/-- C9: every request operation leaves the client's base URI, default
header set and credentials unchanged whatever its outcome, and the
configuration operations never change the base URI: it is immutable after
construction. -/
theorem request_ops_preserve_client_state (α : Type) (st : ClientState)
    (pr : Except Error String) (q : List (String × String)) (m : MMethod)
    (enc : Option String) (tr : MRequest → TransportOutcome) (dec : String → Option α)
    (user pass n v : String) :
    (get_op st pr tr dec).state = st ∧
    (get_with_op st pr q tr dec).state = st ∧
    (post_or_put_op st m enc pr tr).state = st ∧
    (post_or_put_with_op st m enc pr q tr).state = st ∧
    (post_or_put_capture_op st m enc pr tr dec).state = st ∧
    (post_or_put_capture_with_op st m enc pr q tr dec).state = st ∧
    (delete_op st pr tr).state = st ∧
    (set_auth st user pass).baseurl = st.baseurl ∧
    (set_header_raw st n v).baseurl = st.baseurl ∧
    (clear_headers st).baseurl = st.baseurl :=
  ⟨get_op_state α st pr tr dec, get_with_op_state α st pr q tr dec,
    post_or_put_op_state st m enc pr tr, post_or_put_with_op_state st m enc pr q tr,
    post_or_put_capture_op_state α st m enc pr tr dec,
    post_or_put_capture_with_op_state α st m enc pr q tr dec,
    delete_op_state st pr tr, rfl, rfl, rfl⟩

/-- C10: lossy decoding is applied per chunk before concatenation: the byte
stream `C3 A9` (the UTF-8 encoding of `é`) split at the chunk boundary
decodes to replacement characters, while the same bytes in one chunk decode
to `é`, so identical response bytes yield different body strings depending
on chunking. -/
theorem per_chunk_lossy_chunk_dependent :
    ([[0xC3], [0xA9]] : List (List Nat)).flatten =
      ([[0xC3, 0xA9]] : List (List Nat)).flatten ∧
    utf8Valid (([[0xC3], [0xA9]] : List (List Nat)).flatten) = true ∧
    collectBody [[0xC3], [0xA9]] ≠ collectBody [[0xC3, 0xA9]] ∧
    replacementChar ∈ (collectBody [[0xC3], [0xA9]]).data ∧
    collectBody [[0xC3, 0xA9]] = "é" := by
  refine ⟨by decide, by decide, by decide, by decide, by decide⟩

end Restson
